import Mathlib

/-!
The pattern → Helm chart conversion pipeline of meshkit, `converter/helm.go`.

A shallow embedding of `HelmConverter.Convert` and `createHelmChartContent`.

* Go strings are `String`.
* A cleaned, rooted file path is the list of its components (`Path`).
  `filepath.Join` is `joinPath`: split the appended element on `/` and clean
  (`""` and `"."` are dropped, `".."` removes the last component).
* The filesystem is an association list from paths to nodes.  Every `os` call
  may fail for a reason outside the program (permissions, full disk ...):
  the environment carries one fault oracle per kind of call.
* The external collaborators (`patterns.GetPatternFormat`, `K8sConverter.Convert`,
  `helm.SanitizeHelmName`, `os.UserHomeDir`, `uuid.New`, `yaml.Marshal`,
  `action.Package.Run`) are fields of `Env`.
* The world threads the filesystem, the trace of external calls, and the
  warnings printed with `fmt.Printf`.
* A Go result `(string, error)` is a `Result`; the nil error is `none`.
* A deferred call runs after the body on every path: `createHelmChartContent`
  is `chartBuild` (the body below the `defer`) followed by `deferredCleanup`.
-/

namespace Meshkit

/-! ## Data model -/

/-- The two fields of `pattern.PatternFile` that the converter reads. -/
structure Pattern where
  Name : String
  Version : String
deriving DecidableEq, Repr

/-- The fields of `chart.Metadata` that `createHelmChartContent` sets. -/
structure Metadata where
  APIVersion : String
  Name : String
  Version : String
  Description : String
  Type_ : String
deriving DecidableEq, Repr

/-- The error constructors of package `converter` used by `helm.go`. -/
inductive ConvError where
  | ErrLoadPattern (cause : String) (patternFile : String)
  | ErrCreateHelmChart (cause : String) (step : String)
  | ErrConvertK8s (cause : String)
  | ErrHelmPackage (cause : String)
deriving DecidableEq, Repr

/-- A cleaned rooted path: its components, outermost first. -/
abbrev Path := List String

/-- A filesystem node. -/
inductive Node where
  | dir
  | file (data : String)
deriving DecidableEq, Repr

/-- The filesystem: the nodes that exist, by path.  The root `[]` always
exists as a directory and is never listed. -/
abbrev FS := List (Path × Node)

/-! ## Paths: `filepath.Join` -/

/-- Split a list of characters on `/`; `acc` holds the current component reversed. -/
def splitAux : List Char → List Char → List String
  | [], acc => [String.mk acc.reverse]
  | c :: cs, acc =>
    if c = '/' then String.mk acc.reverse :: splitAux cs [] else splitAux cs (c :: acc)

/-- The `/`-separated components of a string. -/
def splitPath (s : String) : List String := splitAux s.toList []

/-- One step of `filepath.Clean` on a rooted path. -/
def cleanStep (acc : Path) (c : String) : Path :=
  if c = "" ∨ c = "." then acc
  else if c = ".." then acc.dropLast
  else acc ++ [c]

/-- The function `filepath.Join(base, elem)` for a cleaned rooted `base`. -/
def joinPath (base : Path) (elem : String) : Path :=
  (splitPath elem).foldl cleanStep base

/-- A single ordinary path component: non-empty, no `/`, neither `.` nor `..`
(a UUID string is one). -/
def isPlainName (s : String) : Bool :=
  decide (splitPath s = [s]) && decide (s ≠ "") && decide (s ≠ ".") && decide (s ≠ "..")

/-! ## Filesystem primitives -/

/-- The node at a path, if any. -/
def lookup : FS → Path → Option Node
  | [], _ => none
  | (q, n) :: rest, p => if q = p then some n else lookup rest p

/-- Whether `p` is an existing directory (the root always is). -/
def isDir (fs : FS) (p : Path) : Bool :=
  p = [] ∨ lookup fs p = some Node.dir

/-- Whether `p` is an existing regular file. -/
def isFile (fs : FS) (p : Path) : Bool :=
  match lookup fs p with
  | some (Node.file _) => true
  | _ => false

/-- Whether some node exists at or below `d`. -/
def existsUnder (fs : FS) (d : Path) : Bool :=
  fs.any (fun e => d.isPrefixOf e.1)

/-- Remove the node at exactly `p`. -/
def erase (fs : FS) (p : Path) : FS :=
  fs.filter (fun e => !decide (e.1 = p))

/-- Remove `d` and everything below it. -/
def eraseTree (fs : FS) (d : Path) : FS :=
  fs.filter (fun e => !d.isPrefixOf e.1)

/-- Create one directory if nothing is there yet. -/
def mkdirOne (fs : FS) (q : Path) : FS :=
  if q = [] ∨ (lookup fs q).isSome then fs else (q, Node.dir) :: fs

/-- The function `os.MkdirAll` without faults: fails when a prefix of `p` is a
regular file, otherwise creates every missing directory on the way to `p`. -/
def mkdirAllFS (fs : FS) (p : Path) : Except String FS :=
  if p.inits.any (fun q => isFile fs q) then Except.error "not a directory"
  else Except.ok (p.inits.foldl mkdirOne fs)

/-- The function `os.WriteFile` without faults: the parent must be a directory
and the target must not be one; the file is created or truncated. -/
def writeFileFS (fs : FS) (p : Path) (data : String) : Except String FS :=
  if p = [] ∨ lookup fs p = some Node.dir then Except.error "is a directory"
  else if isDir fs p.dropLast then Except.ok ((p, Node.file data) :: erase fs p)
  else Except.error "no such file or directory"

/-- The function `os.ReadFile` without faults. -/
def readFileFS (fs : FS) (p : Path) : Except String String :=
  match lookup fs p with
  | some (Node.file d) => Except.ok d
  | some Node.dir => Except.error "is a directory"
  | none => Except.error "no such file or directory"

/-- The function `os.Remove` without faults: removes a file or an empty directory. -/
def removeFS (fs : FS) (p : Path) : Except String FS :=
  match lookup fs p with
  | none => Except.error "no such file or directory"
  | some (Node.file _) => Except.ok (erase fs p)
  | some Node.dir =>
    if existsUnder (erase fs p) p then Except.error "directory not empty"
    else Except.ok (erase fs p)

/-! ## The environment and the world -/

/-- A call that leaves the program: a collaborator or an `os` function. -/
inductive Call where
  | GetPatternFormat (patternFile : String)
  | K8sConvert (patternFile : String)
  | SanitizeHelmName (name : String)
  | UserHomeDir
  | MkdirAll (p : Path)
  | uuidNew
  | yamlMarshal (m : Metadata)
  | WriteFile (p : Path) (data : String)
  | PackageRun (src dest : Path)
  | ReadFile (p : Path)
  | Remove (p : Path)
  | RemoveAll (p : Path)
deriving DecidableEq, Repr

/-- The collaborators of `helm.go` and the fault oracles of the `os` calls.
A fault oracle answers `some cause` when the call on that path fails for a
reason outside the program. -/
structure Env where
  GetPatternFormat : String → Except String Pattern
  K8sConvert : String → Except String String
  SanitizeHelmName : String → String
  UserHomeDir : Except String Path
  uuidNew : String
  yamlMarshal : Metadata → Except String String
  PackageRun : FS → Path → Path → Except String (Path × FS)
  mkdirAllFault : Path → Option String
  writeFileFault : Path → Option String
  readFileFault : Path → Option String
  removeFault : Path → Option String
  removeAllFault : Path → Option String

/-- The state around one call: the filesystem, the external calls made so
far (oldest first) and the warnings printed. -/
structure World where
  fs : FS
  calls : List Call
  warnings : List String
deriving DecidableEq, Repr

/-- The Go result pair `(string, error)`; `err = none` is the nil error. -/
structure Result where
  out : String
  err : Option ConvError
deriving DecidableEq, Repr

/-- Record an external call. -/
def World.log (w : World) (c : Call) : World :=
  { w with calls := w.calls ++ [c] }

/-- Print a warning. -/
def World.warn (w : World) (msg : String) : World :=
  { w with warnings := w.warnings ++ [msg] }

/-- The call `os.MkdirAll(p, 0755)`. -/
def osMkdirAll (env : Env) (w : World) (p : Path) : Option String × World :=
  match env.mkdirAllFault p with
  | some e => (some e, w.log (Call.MkdirAll p))
  | none =>
    match mkdirAllFS w.fs p with
    | Except.error e => (some e, w.log (Call.MkdirAll p))
    | Except.ok fs => (none, { w.log (Call.MkdirAll p) with fs := fs })

/-- The call `os.WriteFile(p, data, 0644)`. -/
def osWriteFile (env : Env) (w : World) (p : Path) (data : String) : Option String × World :=
  match env.writeFileFault p with
  | some e => (some e, w.log (Call.WriteFile p data))
  | none =>
    match writeFileFS w.fs p data with
    | Except.error e => (some e, w.log (Call.WriteFile p data))
    | Except.ok fs => (none, { w.log (Call.WriteFile p data) with fs := fs })

/-- The call `os.ReadFile(p)`. -/
def osReadFile (env : Env) (w : World) (p : Path) : Except String String × World :=
  match env.readFileFault p with
  | some e => (Except.error e, w.log (Call.ReadFile p))
  | none => (readFileFS w.fs p, w.log (Call.ReadFile p))

/-- The call `os.Remove(p)`. -/
def osRemove (env : Env) (w : World) (p : Path) : Option String × World :=
  match env.removeFault p with
  | some e => (some e, w.log (Call.Remove p))
  | none =>
    match removeFS w.fs p with
    | Except.error e => (some e, w.log (Call.Remove p))
    | Except.ok fs => (none, { w.log (Call.Remove p) with fs := fs })

/-- The call `os.RemoveAll(p)`: a missing path is no error; a fault leaves the
tree in place. -/
def osRemoveAll (env : Env) (w : World) (p : Path) : Option String × World :=
  match env.removeAllFault p with
  | some e => (some e, w.log (Call.RemoveAll p))
  | none => (none, { w.log (Call.RemoveAll p) with fs := eraseTree w.fs p })

/-- The call `packager.Run(src, nil)` with `packager.Destination = dest`. -/
def packagerRun (env : Env) (w : World) (src dest : Path) : Except String Path × World :=
  match env.PackageRun w.fs src dest with
  | Except.error e => (Except.error e, w.log (Call.PackageRun src dest))
  | Except.ok (p, fs) => (Except.ok p, { w.log (Call.PackageRun src dest) with fs := fs })

/-- A failed return `return "", err`. -/
def failWith (e : ConvError) : Result := { out := "", err := some e }

/-! ## `createHelmChartContent` -/

/-- The record built at `helm.go` lines 93-99. -/
def chartMetadata (chartName chartVersion : String) : Metadata :=
  { APIVersion := "v3"
    Name := chartName
    Version := chartVersion
    Description := "Helm chart for \x27" ++ chartName ++ "\x27 generated by Meshery"
    Type_ := "application" }

/-- The deferred function of `createHelmChartContent` (lines 77-82):
`os.RemoveAll(buildDir)`, a failure is only printed. -/
def deferredCleanup (env : Env) (w : World) (buildDir : Path) : World :=
  match osRemoveAll env w buildDir with
  | (some e, w1) => w1.warn ("Warning: Failed to clean up build directory: " ++ e ++ "\n")
  | (none, w1) => w1

/-- Lines 84-132 of `createHelmChartContent`: what runs between the
registration of the deferred cleanup and the return. -/
def chartBuild (env : Env) (w : World) (manifestContent chartName chartVersion : String)
    (packageDir chartSourcePath : Path) : Result × World :=
  match osMkdirAll env w chartSourcePath with
  | (some e, w1) => (failWith (ConvError.ErrCreateHelmChart e "creating chart source directory"), w1)
  | (none, w1) =>
    let templatesDir := joinPath chartSourcePath "templates"
    match osMkdirAll env w1 templatesDir with
    | (some e, w2) => (failWith (ConvError.ErrCreateHelmChart e "creating templates directory"), w2)
    | (none, w2) =>
      let chartMeta := chartMetadata chartName chartVersion
      let w3 := w2.log (Call.yamlMarshal chartMeta)
      match env.yamlMarshal chartMeta with
      | Except.error e =>
        (failWith (ConvError.ErrCreateHelmChart e "marshaling Chart.yaml metadata"), w3)
      | Except.ok chartYamlContent =>
        match osWriteFile env w3 (joinPath chartSourcePath "Chart.yaml") chartYamlContent with
        | (some e, w4) => (failWith (ConvError.ErrCreateHelmChart e "writing Chart.yaml"), w4)
        | (none, w4) =>
          match osWriteFile env w4 (joinPath templatesDir "manifest.yaml") manifestContent with
          | (some e, w5) => (failWith (ConvError.ErrCreateHelmChart e "writing manifest.yaml"), w5)
          | (none, w5) =>
            match packagerRun env w5 chartSourcePath packageDir with
            | (Except.error e, w6) => (failWith (ConvError.ErrHelmPackage e), w6)
            | (Except.ok packagedChartPath, w6) =>
              match osReadFile env w6 packagedChartPath with
              | (Except.error e, w7) =>
                (failWith (ConvError.ErrCreateHelmChart e "reading packaged chart"), w7)
              | (Except.ok chartData, w7) =>
                match osRemove env w7 packagedChartPath with
                | (some e, w8) =>
                  ({ out := chartData, err := none },
                   w8.warn ("Warning: Failed to clean up packaged chart: " ++ e ++ "\n"))
                | (none, w8) => ({ out := chartData, err := none }, w8)

/-- The directory `<temp>` of a call: `<home>/.meshery/tmp/helm`. -/
def tempDirOf (homeDir : Path) : Path :=
  joinPath (joinPath (joinPath homeDir ".meshery") "tmp") "helm"

/-- The package output directory: `<home>/.meshery/helm-packages`. -/
def packageDirOf (homeDir : Path) : Path :=
  joinPath (joinPath homeDir ".meshery") "helm-packages"

/-- The function `createHelmChartContent` (lines 55-133). -/
def createHelmChartContent (env : Env) (w : World)
    (manifestContent chartName chartVersion : String) : Result × World :=
  match env.UserHomeDir with
  | Except.error e =>
    (failWith (ConvError.ErrCreateHelmChart e "getting user home directory"),
     w.log Call.UserHomeDir)
  | Except.ok homeDir =>
    let w0 := w.log Call.UserHomeDir
    let mesheryDir := joinPath homeDir ".meshery"
    let packageDir := joinPath mesheryDir "helm-packages"
    let tempDir := joinPath (joinPath mesheryDir "tmp") "helm"
    match osMkdirAll env w0 packageDir with
    | (some e, w1) => (failWith (ConvError.ErrCreateHelmChart e "creating package directory"), w1)
    | (none, w1) =>
      match osMkdirAll env w1 tempDir with
      | (some e, w2) => (failWith (ConvError.ErrCreateHelmChart e "creating temp directory"), w2)
      | (none, w2) =>
        let buildID := env.uuidNew
        let w3 := w2.log Call.uuidNew
        let buildDir := joinPath tempDir buildID
        let chartSourcePath := joinPath buildDir chartName
        let r := chartBuild env w3 manifestContent chartName chartVersion packageDir chartSourcePath
        (r.1, deferredCleanup env r.2 buildDir)

/-! ## `HelmConverter.Convert` -/

/-- The method `HelmConverter.Convert` (lines 18-53). -/
def Convert (env : Env) (w : World) (patternFile : String) : Result × World :=
  if patternFile = "" then
    (failWith (ConvError.ErrLoadPattern "empty input" "input"), w)
  else
    let w1 := w.log (Call.GetPatternFormat patternFile)
    match env.GetPatternFormat patternFile with
    | Except.error e => (failWith (ConvError.ErrLoadPattern e patternFile), w1)
    | Except.ok pattern =>
      if pattern.Name = "" then
        (failWith (ConvError.ErrCreateHelmChart "missing name" "chart metadata"), w1)
      else if pattern.Version = "" then
        (failWith (ConvError.ErrCreateHelmChart "missing version" "chart metadata"), w1)
      else
        let w2 := w1.log (Call.K8sConvert patternFile)
        match env.K8sConvert patternFile with
        | Except.error e => (failWith (ConvError.ErrConvertK8s e), w2)
        | Except.ok k8sManifest =>
          let w3 := w2.log (Call.SanitizeHelmName pattern.Name)
          let chartName :=
            if env.SanitizeHelmName pattern.Name = "" then pattern.Name
            else env.SanitizeHelmName pattern.Name
          let chartVersion := pattern.Version
          createHelmChartContent env w3 k8sManifest chartName chartVersion

/-! ## A concrete environment for evaluation -/

/-- A loader that reads `name/version`; malformed when there is no `/`. -/
def demoLoader (s : String) : Except String Pattern :=
  match splitPath s with
  | [n, v] => Except.ok { Name := n, Version := v }
  | _ => Except.error "malformed pattern"

/-- A packager that writes `<dest>/chart.tgz` when `Chart.yaml` is in place. -/
def demoPackager (fs : FS) (src dest : Path) : Except String (Path × FS) :=
  match lookup fs (src ++ ["Chart.yaml"]) with
  | some (Node.file y) =>
    Except.ok (dest ++ ["chart.tgz"], (dest ++ ["chart.tgz"], Node.file ("tgz:" ++ y)) :: fs)
  | _ => Except.error "Chart.yaml file is missing"

/-- A sanitizer that lowercases and keeps letters, digits and `-`. -/
def demoSanitize (s : String) : String :=
  String.mk ((s.toList.map Char.toLower).filter (fun c => c.isAlphanum || c == '-'))

/-- An environment in which every collaborator and every `os` call succeeds. -/
def demoEnv : Env :=
  { GetPatternFormat := demoLoader
    K8sConvert := fun s => Except.ok ("kind: " ++ s)
    SanitizeHelmName := demoSanitize
    UserHomeDir := Except.ok ["home"]
    uuidNew := "id1"
    yamlMarshal := fun m => Except.ok ("version: " ++ m.Version)
    PackageRun := demoPackager
    mkdirAllFault := fun _ => none
    writeFileFault := fun _ => none
    readFileFault := fun _ => none
    removeFault := fun _ => none
    removeAllFault := fun _ => none }

/-- The environment `demoEnv` in which `os.RemoveAll` fails. -/
def cleanupFaultEnv : Env :=
  { demoEnv with removeAllFault := fun _ => some "permission denied" }

/-- The environment `demoEnv` in which `os.Remove` fails. -/
def removeFaultEnv : Env :=
  { demoEnv with removeFault := fun _ => some "permission denied" }

/-- The environment `demoEnv` in which `os.ReadFile` fails. -/
def readFaultEnv : Env :=
  { demoEnv with readFileFault := fun _ => some "permission denied" }

/-- The environment `demoEnv` with a packager that always fails. -/
def packagerFailEnv : Env :=
  { demoEnv with PackageRun := fun _ _ _ => Except.error "chart is invalid" }

/-- The environment `packagerFailEnv` in which `os.RemoveAll` fails too. -/
def packagerCleanupFailEnv : Env :=
  { packagerFailEnv with removeAllFault := fun _ => some "permission denied" }

/-- The environment `demoEnv` with a renderer that always fails. -/
def rendererFailEnv : Env :=
  { demoEnv with K8sConvert := fun _ => Except.error "no components" }

/-- A packager that leaves an empty archive file at `<dest>/chart.tgz`. -/
def emptyPackager (fs : FS) (_src dest : Path) : Except String (Path × FS) :=
  Except.ok (dest ++ ["chart.tgz"], (dest ++ ["chart.tgz"], Node.file "") :: fs)

/-- The environment `demoEnv` with the packager `emptyPackager`. -/
def emptyArchiveEnv : Env :=
  { demoEnv with PackageRun := emptyPackager }

/-- The empty world. -/
def emptyWorld : World := { fs := [], calls := [], warnings := [] }

/-! ## The worlds of one run of `Convert demoEnv emptyWorld "My App!/1.2.3"` -/

/-- The chart source directory of the run. -/
def demoSrc : Path := ["home", ".meshery", "tmp", "helm", "id1", "myapp"]

/-- The world in which `createHelmChartContent` creates the package directory. -/
def demoRun0 : World :=
  (((emptyWorld.log (Call.GetPatternFormat "My App!/1.2.3")).log
    (Call.K8sConvert "My App!/1.2.3")).log (Call.SanitizeHelmName "My App!")).log
    Call.UserHomeDir

/-- The world after the package directory is created. -/
def demoRun1 : World := (osMkdirAll demoEnv demoRun0 (packageDirOf ["home"])).2

/-- The world after the temp directory is created. -/
def demoRun2 : World := (osMkdirAll demoEnv demoRun1 (tempDirOf ["home"])).2

/-- The world after the chart source directory is created. -/
def demoRun3 : World := (osMkdirAll demoEnv (demoRun2.log Call.uuidNew) demoSrc).2

/-- The world after the templates directory is created. -/
def demoRun4 : World := (osMkdirAll demoEnv demoRun3 (joinPath demoSrc "templates")).2

/-- The world after `Chart.yaml` is written. -/
def demoRun5 : World :=
  (osWriteFile demoEnv (demoRun4.log (Call.yamlMarshal (chartMetadata "myapp" "1.2.3")))
    (joinPath demoSrc "Chart.yaml") "version: 1.2.3").2

/-- The world after `templates/manifest.yaml` is written: the packager is run in it. -/
def demoRun6 : World :=
  (osWriteFile demoEnv demoRun5 (joinPath (joinPath demoSrc "templates") "manifest.yaml")
    "kind: My App!/1.2.3").2

/-- The world after the packager `demoPackager` has run. -/
def demoRun7 : World := (packagerRun demoEnv demoRun6 demoSrc (packageDirOf ["home"])).2

/-- The world after the archive is read back. -/
def demoRun8 : World :=
  (osReadFile demoEnv demoRun7 ["home", ".meshery", "helm-packages", "chart.tgz"]).2

/-- The world after the packager of `packagerFailEnv` has failed. -/
def demoRunFailed : World :=
  (packagerRun packagerFailEnv demoRun6 demoSrc (packageDirOf ["home"])).2

/-! ## The trace of each external call -/

@[simp] theorem log_calls (w : World) (c : Call) : (w.log c).calls = w.calls ++ [c] := rfl

@[simp] theorem log_fs (w : World) (c : Call) : (w.log c).fs = w.fs := rfl

@[simp] theorem warn_calls (w : World) (m : String) : (w.warn m).calls = w.calls := rfl

@[simp] theorem warn_fs (w : World) (m : String) : (w.warn m).fs = w.fs := rfl

theorem osMkdirAll_calls (env : Env) (w : World) (p : Path) :
    (osMkdirAll env w p).2.calls = w.calls ++ [Call.MkdirAll p] := by
  unfold osMkdirAll
  split
  · rfl
  · split <;> rfl

theorem osWriteFile_calls (env : Env) (w : World) (p : Path) (d : String) :
    (osWriteFile env w p d).2.calls = w.calls ++ [Call.WriteFile p d] := by
  unfold osWriteFile
  split
  · rfl
  · split <;> rfl

theorem osReadFile_calls (env : Env) (w : World) (p : Path) :
    (osReadFile env w p).2.calls = w.calls ++ [Call.ReadFile p] := by
  unfold osReadFile
  split <;> rfl

theorem osRemove_calls (env : Env) (w : World) (p : Path) :
    (osRemove env w p).2.calls = w.calls ++ [Call.Remove p] := by
  unfold osRemove
  split
  · rfl
  · split <;> rfl

theorem osRemoveAll_calls (env : Env) (w : World) (p : Path) :
    (osRemoveAll env w p).2.calls = w.calls ++ [Call.RemoveAll p] := by
  unfold osRemoveAll
  split <;> rfl

theorem packagerRun_calls (env : Env) (w : World) (s d : Path) :
    (packagerRun env w s d).2.calls = w.calls ++ [Call.PackageRun s d] := by
  unfold packagerRun
  split <;> rfl

theorem deferredCleanup_calls (env : Env) (w : World) (d : Path) :
    (deferredCleanup env w d).calls = w.calls ++ [Call.RemoveAll d] := by
  have h := osRemoveAll_calls env w d
  unfold deferredCleanup
  split <;> rename_i heq <;> rw [heq] at h <;> simpa using h

theorem osMkdirAll_calls_eq {env : Env} {w w1 : World} {p : Path} {r : Option String}
    (h : osMkdirAll env w p = (r, w1)) : w1.calls = w.calls ++ [Call.MkdirAll p] := by
  have c := osMkdirAll_calls env w p
  rw [h] at c
  exact c

theorem osWriteFile_calls_eq {env : Env} {w w1 : World} {p : Path} {d : String}
    {r : Option String} (h : osWriteFile env w p d = (r, w1)) :
    w1.calls = w.calls ++ [Call.WriteFile p d] := by
  have c := osWriteFile_calls env w p d
  rw [h] at c
  exact c

theorem osReadFile_calls_eq {env : Env} {w w1 : World} {p : Path} {r : Except String String}
    (h : osReadFile env w p = (r, w1)) : w1.calls = w.calls ++ [Call.ReadFile p] := by
  have c := osReadFile_calls env w p
  rw [h] at c
  exact c

theorem osRemove_calls_eq {env : Env} {w w1 : World} {p : Path} {r : Option String}
    (h : osRemove env w p = (r, w1)) : w1.calls = w.calls ++ [Call.Remove p] := by
  have c := osRemove_calls env w p
  rw [h] at c
  exact c

theorem packagerRun_calls_eq {env : Env} {w w1 : World} {s d : Path} {r : Except String Path}
    (h : packagerRun env w s d = (r, w1)) : w1.calls = w.calls ++ [Call.PackageRun s d] := by
  have c := packagerRun_calls env w s d
  rw [h] at c
  exact c

/-! ## Inversion of a successful build -/

theorem failWith_err (e : ConvError) : (failWith e).err ≠ none := by simp [failWith]

/-- A build that returns a nil error went through every step. -/
theorem chartBuild_ok_inv {env : Env} {w : World} {mc n v : String} {pkg src : Path}
    {r : Result} {w' : World}
    (h : chartBuild env w mc n v pkg src = (r, w')) (hr : r.err = none) :
    ∃ w1 w2 yaml w4 w5 p w6 data w7,
      osMkdirAll env w src = (none, w1) ∧
      osMkdirAll env w1 (joinPath src "templates") = (none, w2) ∧
      env.yamlMarshal (chartMetadata n v) = Except.ok yaml ∧
      osWriteFile env (w2.log (Call.yamlMarshal (chartMetadata n v)))
        (joinPath src "Chart.yaml") yaml = (none, w4) ∧
      osWriteFile env w4 (joinPath (joinPath src "templates") "manifest.yaml") mc = (none, w5) ∧
      packagerRun env w5 src pkg = (Except.ok p, w6) ∧
      osReadFile env w6 p = (Except.ok data, w7) ∧
      r.out = data ∧
      (w' = (osRemove env w7 p).2 ∨ ∃ msg, w' = (osRemove env w7 p).2.warn msg) := by
  unfold chartBuild at h
  rcases h1 : osMkdirAll env w src with ⟨_ | e, w1⟩
  case some => simp only [h1, Prod.mk.injEq] at h; obtain ⟨rfl, -⟩ := h; simp [failWith] at hr
  rcases h2 : osMkdirAll env w1 (joinPath src "templates") with ⟨_ | e, w2⟩
  case some => simp only [h1, h2, Prod.mk.injEq] at h; obtain ⟨rfl, -⟩ := h; simp [failWith] at hr
  rcases h3 : env.yamlMarshal (chartMetadata n v) with e | yaml
  case error =>
    simp only [h1, h2, h3, Prod.mk.injEq] at h; obtain ⟨rfl, -⟩ := h; simp [failWith] at hr
  rcases h4 : osWriteFile env (w2.log (Call.yamlMarshal (chartMetadata n v)))
        (joinPath src "Chart.yaml") yaml with ⟨_ | e, w4⟩
  case some =>
    simp only [h1, h2, h3, h4, Prod.mk.injEq] at h; obtain ⟨rfl, -⟩ := h; simp [failWith] at hr
  rcases h5 : osWriteFile env w4 (joinPath (joinPath src "templates") "manifest.yaml") mc
    with ⟨_ | e, w5⟩
  case some =>
    simp only [h1, h2, h3, h4, h5, Prod.mk.injEq] at h; obtain ⟨rfl, -⟩ := h
    simp [failWith] at hr
  rcases h6 : packagerRun env w5 src pkg with ⟨e | p, w6⟩
  case error =>
    simp only [h1, h2, h3, h4, h5, h6, Prod.mk.injEq] at h; obtain ⟨rfl, -⟩ := h
    simp [failWith] at hr
  rcases h7 : osReadFile env w6 p with ⟨e | data, w7⟩
  case error =>
    simp only [h1, h2, h3, h4, h5, h6, h7, Prod.mk.injEq] at h; obtain ⟨rfl, -⟩ := h
    simp [failWith] at hr
  refine ⟨w1, w2, yaml, w4, w5, p, w6, data, w7, rfl, h2, rfl, h4, h5, h6, h7, ?_, ?_⟩
  · rcases h8 : osRemove env w7 p with ⟨_ | e, w8⟩ <;>
      simp only [h1, h2, h3, h4, h5, h6, h7, h8, Prod.mk.injEq] at h <;>
      obtain ⟨rfl, -⟩ := h <;> rfl
  · rcases h8 : osRemove env w7 p with ⟨_ | e, w8⟩ <;>
      simp only [h1, h2, h3, h4, h5, h6, h7, h8, Prod.mk.injEq] at h <;>
      obtain ⟨-, rfl⟩ := h
    · exact Or.inl rfl
    · exact Or.inr ⟨_, rfl⟩

/-- A build returns a nil error or the pair `"", err`. -/
theorem chartBuild_err_or (env : Env) (w : World) (mc n v : String) (pkg src : Path) :
    (chartBuild env w mc n v pkg src).1.err = none ∨
      ∃ e, (chartBuild env w mc n v pkg src).1 = failWith e := by
  by_cases hr : (chartBuild env w mc n v pkg src).1.err = none
  · exact Or.inl hr
  · right
    unfold chartBuild at hr ⊢
    rcases h1 : osMkdirAll env w src with ⟨_ | e, w1⟩
    swap
    · simp only [h1]; exact ⟨_, rfl⟩
    rcases h2 : osMkdirAll env w1 (joinPath src "templates") with ⟨_ | e, w2⟩
    swap
    · simp only [h1, h2]; exact ⟨_, rfl⟩
    rcases h3 : env.yamlMarshal (chartMetadata n v) with e | yaml
    · simp only [h1, h2, h3]; exact ⟨_, rfl⟩
    rcases h4 : osWriteFile env (w2.log (Call.yamlMarshal (chartMetadata n v)))
          (joinPath src "Chart.yaml") yaml with ⟨_ | e, w4⟩
    swap
    · simp only [h1, h2, h3, h4]; exact ⟨_, rfl⟩
    rcases h5 : osWriteFile env w4 (joinPath (joinPath src "templates") "manifest.yaml") mc
      with ⟨_ | e, w5⟩
    swap
    · simp only [h1, h2, h3, h4, h5]; exact ⟨_, rfl⟩
    rcases h6 : packagerRun env w5 src pkg with ⟨e | p, w6⟩
    · simp only [h1, h2, h3, h4, h5, h6]; exact ⟨_, rfl⟩
    rcases h7 : osReadFile env w6 p with ⟨e | data, w7⟩
    · simp only [h1, h2, h3, h4, h5, h6, h7]; exact ⟨_, rfl⟩
    rcases h8 : osRemove env w7 p with ⟨_ | e, w8⟩ <;>
      simp [h1, h2, h3, h4, h5, h6, h7, h8] at hr

theorem packagerRun_ok_inv {env : Env} {w w1 : World} {s d p : Path}
    (h : packagerRun env w s d = (Except.ok p, w1)) :
    env.PackageRun w.fs s d = Except.ok (p, w1.fs) := by
  unfold packagerRun at h
  split at h
  · simp at h
  · rename_i q fs heq
    simp only [Prod.mk.injEq, Except.ok.injEq] at h
    obtain ⟨rfl, rfl⟩ := h
    exact heq

theorem osReadFile_ok_inv {env : Env} {w w1 : World} {p : Path} {data : String}
    (h : osReadFile env w p = (Except.ok data, w1)) :
    lookup w.fs p = some (Node.file data) ∧ w1.fs = w.fs := by
  unfold osReadFile at h
  split at h
  · simp at h
  · simp only [Prod.mk.injEq] at h
    obtain ⟨h1, rfl⟩ := h
    refine ⟨?_, rfl⟩
    unfold readFileFS at h1
    split at h1 <;> simp_all

/-- The function `createHelmChartContent` returns a nil error or the pair `"", err`. -/
theorem createHelmChartContent_err_or (env : Env) (w : World) (mc n v : String) :
    (createHelmChartContent env w mc n v).1.err = none ∨
      ∃ e, (createHelmChartContent env w mc n v).1 = failWith e := by
  unfold createHelmChartContent
  rcases h0 : env.UserHomeDir with e | homeDir
  · exact Or.inr ⟨_, rfl⟩
  dsimp only
  rcases h1 : osMkdirAll env (w.log Call.UserHomeDir)
      (joinPath (joinPath homeDir ".meshery") "helm-packages") with ⟨_ | e, w1⟩
  swap
  · exact Or.inr ⟨_, rfl⟩
  dsimp only
  rcases h2 : osMkdirAll env w1 (joinPath (joinPath (joinPath homeDir ".meshery") "tmp") "helm")
    with ⟨_ | e, w2⟩
  swap
  · exact Or.inr ⟨_, rfl⟩
  exact chartBuild_err_or _ _ _ _ _ _ _

/-- A successful `createHelmChartContent` resolved the home directory, created
both working directories, ran a successful build and then the deferred cleanup. -/
theorem createHelmChartContent_ok_inv {env : Env} {w : World} {mc n v : String}
    {r : Result} {w' : World}
    (h : createHelmChartContent env w mc n v = (r, w')) (hr : r.err = none) :
    ∃ homeDir w1 w2 wb,
      env.UserHomeDir = Except.ok homeDir ∧
      osMkdirAll env (w.log Call.UserHomeDir) (packageDirOf homeDir) = (none, w1) ∧
      osMkdirAll env w1 (tempDirOf homeDir) = (none, w2) ∧
      chartBuild env (w2.log Call.uuidNew) mc n v (packageDirOf homeDir)
        (joinPath (joinPath (tempDirOf homeDir) env.uuidNew) n) = (r, wb) ∧
      w' = deferredCleanup env wb (joinPath (tempDirOf homeDir) env.uuidNew) := by
  unfold createHelmChartContent at h
  rcases h0 : env.UserHomeDir with e | homeDir
  · simp only [h0, Prod.mk.injEq] at h; obtain ⟨rfl, -⟩ := h; simp [failWith] at hr
  rcases h1 : osMkdirAll env (w.log Call.UserHomeDir) (packageDirOf homeDir) with ⟨_ | e, w1⟩
  swap
  · unfold packageDirOf at h1
    simp only [h0, h1, Prod.mk.injEq] at h; obtain ⟨rfl, -⟩ := h; simp [failWith] at hr
  rcases h2 : osMkdirAll env w1 (tempDirOf homeDir) with ⟨_ | e, w2⟩
  swap
  · unfold packageDirOf at h1
    unfold tempDirOf at h2
    simp only [h0, h1, h2, Prod.mk.injEq] at h; obtain ⟨rfl, -⟩ := h; simp [failWith] at hr
  unfold packageDirOf at h1
  unfold tempDirOf at h2
  simp only [h0, h1, h2, Prod.mk.injEq] at h
  obtain ⟨rfl, rfl⟩ := h
  exact ⟨homeDir, w1, w2, _, rfl, h1, h2, rfl, rfl⟩

/-- Every metadata record marshalled during a build is the one of lines 93-99. -/
theorem chartBuild_marshal {env : Env} {w : World} {mc n v : String} {pkg src : Path}
    {m : Metadata} (hm : Call.yamlMarshal m ∈ (chartBuild env w mc n v pkg src).2.calls) :
    Call.yamlMarshal m ∈ w.calls ∨ m = chartMetadata n v := by
  unfold chartBuild at hm
  rcases h1 : osMkdirAll env w src with ⟨_ | e, w1⟩
  swap
  · simp only [h1, osMkdirAll_calls_eq h1] at hm
    simp at hm; exact Or.inl hm
  have c1 := osMkdirAll_calls_eq h1
  rcases h2 : osMkdirAll env w1 (joinPath src "templates") with ⟨_ | e, w2⟩
  swap
  · simp only [h1, h2, osMkdirAll_calls_eq h2, c1] at hm
    simp at hm; exact Or.inl hm
  have c2 := osMkdirAll_calls_eq h2
  rcases h3 : env.yamlMarshal (chartMetadata n v) with e | yaml
  · simp only [h1, h2, h3, log_calls, c2, c1] at hm
    simp at hm; tauto
  rcases h4 : osWriteFile env (w2.log (Call.yamlMarshal (chartMetadata n v)))
        (joinPath src "Chart.yaml") yaml with ⟨_ | e, w4⟩
  swap
  · simp only [h1, h2, h3, h4, osWriteFile_calls_eq h4, log_calls, c2, c1] at hm
    simp at hm; tauto
  have c4 := osWriteFile_calls_eq h4
  rcases h5 : osWriteFile env w4 (joinPath (joinPath src "templates") "manifest.yaml") mc
    with ⟨_ | e, w5⟩
  swap
  · simp only [h1, h2, h3, h4, h5, osWriteFile_calls_eq h5, c4, log_calls, c2, c1] at hm
    simp at hm; tauto
  have c5 := osWriteFile_calls_eq h5
  rcases h6 : packagerRun env w5 src pkg with ⟨e | p, w6⟩
  · simp only [h1, h2, h3, h4, h5, h6, packagerRun_calls_eq h6, c5, c4, log_calls, c2, c1] at hm
    simp at hm; tauto
  have c6 := packagerRun_calls_eq h6
  rcases h7 : osReadFile env w6 p with ⟨e | data, w7⟩
  · simp only [h1, h2, h3, h4, h5, h6, h7, osReadFile_calls_eq h7, c6, c5, c4, log_calls,
      c2, c1] at hm
    simp at hm; tauto
  have c7 := osReadFile_calls_eq h7
  rcases h8 : osRemove env w7 p with ⟨_ | e, w8⟩ <;>
    simp only [h1, h2, h3, h4, h5, h6, h7, h8, warn_calls, osRemove_calls_eq h8, c7, c6, c5,
      c4, log_calls, c2, c1] at hm <;>
    simp at hm <;> tauto

/-- Every metadata record marshalled by `createHelmChartContent` carries the
chart name and version it was called with. -/
theorem createHelmChartContent_marshal {env : Env} {w : World} {mc n v : String}
    {m : Metadata}
    (hm : Call.yamlMarshal m ∈ (createHelmChartContent env w mc n v).2.calls) :
    Call.yamlMarshal m ∈ w.calls ∨ m = chartMetadata n v := by
  unfold createHelmChartContent at hm
  rcases h0 : env.UserHomeDir with e | homeDir
  · simp only [h0, log_calls] at hm
    simp at hm; exact Or.inl hm
  rcases h1 : osMkdirAll env (w.log Call.UserHomeDir)
      (joinPath (joinPath homeDir ".meshery") "helm-packages") with ⟨_ | e, w1⟩
  swap
  · simp only [h0, h1, osMkdirAll_calls_eq h1, log_calls] at hm
    simp at hm; exact Or.inl hm
  have c1 := osMkdirAll_calls_eq h1
  rcases h2 : osMkdirAll env w1 (joinPath (joinPath (joinPath homeDir ".meshery") "tmp") "helm")
    with ⟨_ | e, w2⟩
  swap
  · simp only [h0, h1, h2, osMkdirAll_calls_eq h2, c1, log_calls] at hm
    simp at hm; exact Or.inl hm
  have c2 := osMkdirAll_calls_eq h2
  simp only [h0, h1, h2, deferredCleanup_calls] at hm
  simp only [List.mem_append, List.mem_singleton] at hm
  rcases hm with hm | hm
  · rcases chartBuild_marshal hm with h | h
    · simp only [log_calls, c2, c1] at h
      simp at h; exact Or.inl h
    · exact Or.inr h
  · cases hm

/-! ## `Convert` -/

/-- The chart name `Convert` settles on (lines 40-43). -/
theorem Convert_unfold {env : Env} {w : World} {patternFile : String} {pattern : Pattern}
    {manifest : String} (hne : patternFile ≠ "")
    (hload : env.GetPatternFormat patternFile = Except.ok pattern)
    (hname : pattern.Name ≠ "") (hver : pattern.Version ≠ "")
    (hrender : env.K8sConvert patternFile = Except.ok manifest) :
    Convert env w patternFile =
      createHelmChartContent env
        (((w.log (Call.GetPatternFormat patternFile)).log (Call.K8sConvert patternFile)).log
          (Call.SanitizeHelmName pattern.Name))
        manifest
        (if env.SanitizeHelmName pattern.Name = "" then pattern.Name
          else env.SanitizeHelmName pattern.Name)
        pattern.Version := by
  unfold Convert
  simp only [hne, hload, hname, hver, hrender, if_false]

/-- The method `Convert` returns a nil error or the pair `"", err`. -/
theorem Convert_err_or (env : Env) (w : World) (patternFile : String) :
    (Convert env w patternFile).1.err = none ∨
      ∃ e, (Convert env w patternFile).1 = failWith e := by
  unfold Convert
  split
  · exact Or.inr ⟨_, rfl⟩
  dsimp only
  split
  · exact Or.inr ⟨_, rfl⟩
  split
  · exact Or.inr ⟨_, rfl⟩
  split
  · exact Or.inr ⟨_, rfl⟩
  split
  · exact Or.inr ⟨_, rfl⟩
  exact createHelmChartContent_err_or _ _ _ _ _

/-- A successful `Convert` loaded a pattern with a name and a version,
rendered the manifest and ran a successful `createHelmChartContent`. -/
theorem Convert_ok_inv {env : Env} {w : World} {patternFile : String} {r : Result}
    {w' : World} (h : Convert env w patternFile = (r, w')) (hr : r.err = none) :
    patternFile ≠ "" ∧ ∃ pattern manifest,
      env.GetPatternFormat patternFile = Except.ok pattern ∧
      pattern.Name ≠ "" ∧ pattern.Version ≠ "" ∧
      env.K8sConvert patternFile = Except.ok manifest ∧
      createHelmChartContent env
        (((w.log (Call.GetPatternFormat patternFile)).log (Call.K8sConvert patternFile)).log
          (Call.SanitizeHelmName pattern.Name))
        manifest
        (if env.SanitizeHelmName pattern.Name = "" then pattern.Name
          else env.SanitizeHelmName pattern.Name)
        pattern.Version = (r, w') := by
  by_cases hne : patternFile = ""
  · simp only [Convert, hne, if_true, Prod.mk.injEq] at h
    obtain ⟨rfl, -⟩ := h
    simp [failWith] at hr
  refine ⟨hne, ?_⟩
  rcases hload : env.GetPatternFormat patternFile with e | pattern
  · simp only [Convert, hne, hload, if_false, Prod.mk.injEq] at h
    obtain ⟨rfl, -⟩ := h
    simp [failWith] at hr
  by_cases hname : pattern.Name = ""
  · simp only [Convert, hne, hload, hname, if_true, if_false, Prod.mk.injEq] at h
    obtain ⟨rfl, -⟩ := h
    simp [failWith] at hr
  by_cases hver : pattern.Version = ""
  · simp only [Convert, hne, hload, hname, hver, if_true, if_false, Prod.mk.injEq] at h
    obtain ⟨rfl, -⟩ := h
    simp [failWith] at hr
  rcases hrender : env.K8sConvert patternFile with e | manifest
  · simp only [Convert, hne, hload, hname, hver, hrender, if_false, Prod.mk.injEq] at h
    obtain ⟨rfl, -⟩ := h
    simp [failWith] at hr
  refine ⟨pattern, manifest, rfl, hname, hver, rfl, ?_⟩
  rw [← Convert_unfold hne hload hname hver hrender]
  exact h

/-- C8: `Convert("")` returns no archive and the load-pattern error with cause
"empty input" tagged "input"; the world is returned unchanged, so no
collaborator and no filesystem call was made, whatever the environment is. -/
theorem Convert_empty_input (env : Env) (w : World) :
    Convert env w "" =
      ({ out := "", err := some (ConvError.ErrLoadPattern "empty input" "input") }, w) := by
  simp [Convert, failWith]

/-- C7: when the loader, called on a non-empty input, yields a pattern whose
name or version is empty, `Convert` returns no archive and the chart-creation
error tagged "chart metadata", with cause "missing name" if the name is empty
and "missing version" otherwise; the only external call made is the loader,
and the filesystem is untouched. -/
theorem Convert_missing_metadata (env : Env) (w : World) (patternFile : String)
    (pattern : Pattern) (hne : patternFile ≠ "")
    (hload : env.GetPatternFormat patternFile = Except.ok pattern)
    (hmiss : pattern.Name = "" ∨ pattern.Version = "") :
    Convert env w patternFile =
      ({ out := "",
         err := some (ConvError.ErrCreateHelmChart
           (if pattern.Name = "" then "missing name" else "missing version")
           "chart metadata") },
       { fs := w.fs, calls := w.calls ++ [Call.GetPatternFormat patternFile],
         warnings := w.warnings }) := by
  unfold Convert
  by_cases hname : pattern.Name = ""
  · simp [hne, hload, hname, failWith, World.log]
  · have hver : pattern.Version = "" := hmiss.resolve_left hname
    simp [hne, hload, hname, hver, failWith, World.log]

theorem Convert_missing_metadata_witness :
    ("/1" ≠ "" ∧ demoEnv.GetPatternFormat "/1" = Except.ok { Name := "", Version := "1" }) ∧
    Convert demoEnv emptyWorld "/1" =
      ({ out := "", err := some (ConvError.ErrCreateHelmChart "missing name" "chart metadata") },
       { fs := [], calls := [Call.GetPatternFormat "/1"], warnings := [] }) :=
  ⟨⟨by decide, rfl⟩,
   Convert_missing_metadata demoEnv emptyWorld "/1" { Name := "", Version := "1" }
     (by decide) rfl (Or.inl rfl)⟩

/-- C6: once the loader has yielded a pattern with a name `n` and a version
and the renderer has succeeded, `Convert` is exactly `createHelmChartContent`
called with the chart name `SanitizeHelmName(n)`, or `n` itself when the
sanitized name is empty (so an empty sanitized name is never a failure of its
own), and every metadata record marshalled for `Chart.yaml` during the call
carries that chart name. -/
theorem Convert_chart_name (env : Env) (w : World) (patternFile : String)
    (pattern : Pattern) (manifest : String) (hne : patternFile ≠ "")
    (hload : env.GetPatternFormat patternFile = Except.ok pattern)
    (hname : pattern.Name ≠ "") (hver : pattern.Version ≠ "")
    (hrender : env.K8sConvert patternFile = Except.ok manifest) :
    Convert env w patternFile =
      createHelmChartContent env
        (((w.log (Call.GetPatternFormat patternFile)).log (Call.K8sConvert patternFile)).log
          (Call.SanitizeHelmName pattern.Name))
        manifest
        (if env.SanitizeHelmName pattern.Name = "" then pattern.Name
          else env.SanitizeHelmName pattern.Name)
        pattern.Version ∧
    ∀ m, Call.yamlMarshal m ∈ (Convert env w patternFile).2.calls →
      Call.yamlMarshal m ∈ w.calls ∨
        m.Name = (if env.SanitizeHelmName pattern.Name = "" then pattern.Name
          else env.SanitizeHelmName pattern.Name) := by
  have hu := Convert_unfold (w := w) hne hload hname hver hrender
  refine ⟨hu, ?_⟩
  intro m hm
  rw [hu] at hm
  rcases createHelmChartContent_marshal hm with h | h
  · simp at h
    exact Or.inl h
  · right
    rw [h]
    rfl

/-- C9 (amended): `Convert` returns either a nil error together with the whole
content of the file that the packager left at the path it returned (the empty
string when that file is empty), or an error together with the empty string;
never a non-empty result together with an error, whatever the collaborators
and the filesystem do, failing cleanups included. -/
theorem Convert_archive_or_error (env : Env) (w : World) (patternFile : String) :
    ((Convert env w patternFile).1.err = none ∧
      ∃ fs src dest p fs1, env.PackageRun fs src dest = Except.ok (p, fs1) ∧
        lookup fs1 p = some (Node.file (Convert env w patternFile).1.out)) ∨
    (∃ e, (Convert env w patternFile).1 = { out := "", err := some e }) := by
  rcases Convert_err_or env w patternFile with hr | ⟨e, he⟩
  · left
    refine ⟨hr, ?_⟩
    obtain ⟨-, pattern, manifest, -, -, -, -, hc⟩ :=
      Convert_ok_inv (show Convert env w patternFile =
        ((Convert env w patternFile).1, (Convert env w patternFile).2) from rfl) hr
    obtain ⟨homeDir, w1, w2, wb, -, -, -, hb, -⟩ := createHelmChartContent_ok_inv hc hr
    obtain ⟨_, _, _, _, w5, p, w6, data, w7, -, -, -, -, -, hp, hread, hout, -⟩ :=
      chartBuild_ok_inv hb hr
    have hp1 := packagerRun_ok_inv hp
    have hread1 := (osReadFile_ok_inv hread).1
    rw [hout]
    exact ⟨_, _, _, _, _, hp1, hread1⟩
  · right
    exact ⟨e, he⟩


theorem Convert_chart_name_witness :
    ("!!!/1" ≠ "" ∧
      demoEnv.GetPatternFormat "!!!/1" = Except.ok { Name := "!!!", Version := "1" } ∧
      "!!!" ≠ "" ∧ "1" ≠ "" ∧ demoEnv.K8sConvert "!!!/1" = Except.ok "kind: !!!/1") ∧
    (Convert demoEnv emptyWorld "!!!/1" =
      createHelmChartContent demoEnv
        (((emptyWorld.log (Call.GetPatternFormat "!!!/1")).log (Call.K8sConvert "!!!/1")).log
          (Call.SanitizeHelmName "!!!"))
        "kind: !!!/1" "!!!" "1" ∧
      ∀ m, Call.yamlMarshal m ∈ (Convert demoEnv emptyWorld "!!!/1").2.calls →
        Call.yamlMarshal m ∈ emptyWorld.calls ∨ m.Name = "!!!") :=
  ⟨⟨by decide, rfl, by decide, by decide, rfl⟩,
   Convert_chart_name demoEnv emptyWorld "!!!/1" { Name := "!!!", Version := "1" }
     "kind: !!!/1" (by decide) rfl (by decide) (by decide) rfl⟩

/-! ## Filesystem lemmas -/

theorem lookup_filter_none {fs : FS} {p : Path} (f : Path × Node → Bool)
    (h : lookup fs p = none) : lookup (fs.filter f) p = none := by
  induction fs with
  | nil => rfl
  | cons e rest ih =>
    obtain ⟨q, n⟩ := e
    unfold lookup at h
    split at h
    · cases h
    · rename_i hq
      rw [List.filter_cons]
      split
      · unfold lookup
        rw [if_neg hq]
        exact ih h
      · exact ih h

theorem lookup_erase_self (fs : FS) (p : Path) : lookup (erase fs p) p = none := by
  induction fs with
  | nil => rfl
  | cons e rest ih =>
    obtain ⟨q, n⟩ := e
    unfold erase
    rw [List.filter_cons]
    by_cases hq : q = p
    · simp only [hq, decide_True, Bool.not_true, Bool.false_eq_true, if_false]
      exact ih
    · simp only [hq, decide_False, Bool.not_false, if_true]
      unfold lookup
      rw [if_neg hq]
      exact ih

theorem lookup_erase_ne (fs : FS) {p q : Path} (h : q ≠ p) :
    lookup (erase fs p) q = lookup fs q := by
  induction fs with
  | nil => rfl
  | cons e rest ih =>
    obtain ⟨r, n⟩ := e
    unfold erase
    rw [List.filter_cons]
    by_cases hr : r = p
    · simp only [hr, decide_True, Bool.not_true, Bool.false_eq_true, if_false]
      rw [lookup, if_neg (Ne.symm h)]
      exact ih
    · simp only [hr, decide_False, Bool.not_false, if_true]
      unfold lookup
      split
      · rfl
      · exact ih

theorem existsUnder_eraseTree (fs : FS) (d : Path) : existsUnder (eraseTree fs d) d = false := by
  unfold existsUnder eraseTree
  rw [List.any_eq_false]
  intro e he
  have h2 := (List.mem_filter.mp he).2
  intro hpre
  rw [hpre] at h2
  cases h2

theorem lookup_of_not_existsUnder {fs : FS} {d p : Path} (h : existsUnder fs d = false)
    (hp : d <+: p) : lookup fs p = none := by
  induction fs with
  | nil => rfl
  | cons e rest ih =>
    obtain ⟨q, n⟩ := e
    unfold existsUnder at h
    rw [List.any_cons, Bool.or_eq_false_iff] at h
    by_cases hq : q = p
    · subst hq
      have hpre : d.isPrefixOf q = true := List.isPrefixOf_iff_prefix.mpr hp
      have h1 := h.1
      rw [hpre] at h1
      cases h1
    · rw [lookup, if_neg hq]
      exact ih h.2


/-! ## Paths of one call -/

theorem joinPath_plain (base : Path) {s : String} (h : isPlainName s = true) :
    joinPath base s = base ++ [s] := by
  unfold isPlainName at h
  simp only [Bool.and_eq_true, decide_eq_true_eq] at h
  obtain ⟨⟨⟨h1, h2⟩, h3⟩, h4⟩ := h
  unfold joinPath
  rw [h1]
  simp [cleanStep, h2, h3, h4]

theorem packageDirOf_eq (homeDir : Path) :
    packageDirOf homeDir = homeDir ++ [".meshery", "helm-packages"] := by
  show (homeDir ++ [".meshery"]) ++ ["helm-packages"] = _
  simp

theorem tempDirOf_eq (homeDir : Path) :
    tempDirOf homeDir = homeDir ++ [".meshery", "tmp", "helm"] := by
  show ((homeDir ++ [".meshery"]) ++ ["tmp"]) ++ ["helm"] = _
  simp

theorem buildDir_eq (homeDir : Path) {id : String} (h : isPlainName id = true) :
    joinPath (tempDirOf homeDir) id = homeDir ++ [".meshery", "tmp", "helm", id] := by
  rw [joinPath_plain _ h, tempDirOf_eq]
  simp

/-! ## What each `os` call does to the filesystem -/

theorem osMkdirAll_fail_fs {env : Env} {w w1 : World} {p : Path} {e : String}
    (h : osMkdirAll env w p = (some e, w1)) : w1.fs = w.fs := by
  unfold osMkdirAll at h
  split at h
  · simp only [Prod.mk.injEq] at h
    obtain ⟨-, rfl⟩ := h
    rfl
  · split at h
    · simp only [Prod.mk.injEq] at h
      obtain ⟨-, rfl⟩ := h
      rfl
    · simp at h

theorem osMkdirAll_ok_inv {env : Env} {w w1 : World} {p : Path}
    (h : osMkdirAll env w p = (none, w1)) :
    env.mkdirAllFault p = none ∧ mkdirAllFS w.fs p = Except.ok w1.fs := by
  unfold osMkdirAll at h
  split at h
  · simp at h
  · rename_i hf
    split at h
    · simp at h
    · rename_i fs hfs
      simp only [Prod.mk.injEq, true_and] at h
      subst h
      exact ⟨hf, hfs⟩

theorem mkdirAllFS_ok_inv {fs fs1 : FS} {p : Path} (h : mkdirAllFS fs p = Except.ok fs1) :
    (∀ q ∈ p.inits, isFile fs q = false) ∧ fs1 = p.inits.foldl mkdirOne fs := by
  unfold mkdirAllFS at h
  split at h
  · cases h
  · rename_i hany
    simp only [Except.ok.injEq] at h
    refine ⟨?_, h.symm⟩
    intro q hq
    simp only [Bool.not_eq_true, List.any_eq_false] at hany
    have := hany q hq
    simpa using this

theorem existsUnder_mkdirOne {fs : FS} {d q : Path} (h : existsUnder fs d = false)
    (hq : ¬ d <+: q) : existsUnder (mkdirOne fs q) d = false := by
  unfold mkdirOne
  split
  · exact h
  · unfold existsUnder at h ⊢
    rw [List.any_cons, h, Bool.or_false]
    cases hpre : d.isPrefixOf q
    · rfl
    · exact absurd (List.isPrefixOf_iff_prefix.mp hpre) hq

theorem existsUnder_foldl_mkdirOne {d : Path} (l : List Path) (hl : ∀ q ∈ l, ¬ d <+: q) :
    ∀ fs : FS, existsUnder fs d = false → existsUnder (l.foldl mkdirOne fs) d = false := by
  induction l with
  | nil => intro fs h; exact h
  | cons q rest ih =>
    intro fs h
    rw [List.foldl_cons]
    apply ih (fun r hr => hl r (List.mem_cons_of_mem _ hr))
    exact existsUnder_mkdirOne h (hl q (List.mem_cons_self _ _))

/-- Creating `p` leaves everything at or below a longer path absent. -/
theorem osMkdirAll_existsUnder {env : Env} {w w1 : World} {p d : Path}
    (h : osMkdirAll env w p = (none, w1)) (hd : existsUnder w.fs d = false)
    (hlen : p.length < d.length) : existsUnder w1.fs d = false := by
  have h1 := (mkdirAllFS_ok_inv (osMkdirAll_ok_inv h).2).2
  rw [h1]
  apply existsUnder_foldl_mkdirOne _ _ _ hd
  intro q hq hdq
  have hqp : q <+: p := (List.mem_inits _ _).mp hq
  have := hdq.length_le
  have := hqp.length_le
  omega

theorem deferredCleanup_fs_ok {env : Env} {w : World} {d : Path}
    (h : env.removeAllFault d = none) : (deferredCleanup env w d).fs = eraseTree w.fs d := by
  unfold deferredCleanup osRemoveAll
  simp only [h]

theorem deferredCleanup_fs_fault {env : Env} {w : World} {d : Path} {e : String}
    (h : env.removeAllFault d = some e) : (deferredCleanup env w d).fs = w.fs := by
  unfold deferredCleanup osRemoveAll
  simp only [h]
  rfl

/-- When `os.RemoveAll` does not fail, nothing is left at or below the build
directory after `createHelmChartContent`, on every path through it. -/
theorem createHelmChartContent_buildDir_gone {env : Env} {w : World} {mc n v : String}
    {homeDir : Path} (hhome : env.UserHomeDir = Except.ok homeDir)
    (hid : isPlainName env.uuidNew = true)
    (hfresh : existsUnder w.fs (joinPath (tempDirOf homeDir) env.uuidNew) = false)
    (hrm : env.removeAllFault (joinPath (tempDirOf homeDir) env.uuidNew) = none) :
    existsUnder (createHelmChartContent env w mc n v).2.fs
      (joinPath (tempDirOf homeDir) env.uuidNew) = false := by
  have hb := buildDir_eq homeDir hid
  unfold createHelmChartContent
  rcases h1 : osMkdirAll env (w.log Call.UserHomeDir) (packageDirOf homeDir) with ⟨_ | e, w1⟩
  swap
  · unfold packageDirOf at h1
    simp only [hhome, h1]
    rw [osMkdirAll_fail_fs h1]
    exact hfresh
  have e1 : existsUnder w1.fs (joinPath (tempDirOf homeDir) env.uuidNew) = false := by
    apply osMkdirAll_existsUnder h1 hfresh
    rw [hb, packageDirOf_eq]
    simp
  rcases h2 : osMkdirAll env w1 (tempDirOf homeDir) with ⟨_ | e, w2⟩
  swap
  · unfold packageDirOf at h1
    unfold tempDirOf at h2
    simp only [hhome, h1, h2]
    rw [osMkdirAll_fail_fs h2]
    exact e1
  unfold packageDirOf at h1
  unfold tempDirOf at h2 hrm ⊢
  simp only [hhome, h1, h2]
  rw [deferredCleanup_fs_ok hrm]
  exact existsUnder_eraseTree _ _


/-! ## The build directory after a call -/

theorem Convert_fs_or (env : Env) (w : World) (patternFile : String) :
    (Convert env w patternFile).2.fs = w.fs ∨
    ∃ w0 mc n v, w0.fs = w.fs ∧
      (Convert env w patternFile).2 = (createHelmChartContent env w0 mc n v).2 := by
  unfold Convert
  split
  · exact Or.inl rfl
  dsimp only
  split
  · exact Or.inl rfl
  split
  · exact Or.inl rfl
  split
  · exact Or.inl rfl
  split
  · exact Or.inl rfl
  refine Or.inr ⟨_, _, _, _, ?_, rfl⟩
  rfl

/-- C2 (amended): if `os.RemoveAll` of the build directory does not fail, then
after `createHelmChartContent`, and after `Convert`, whichever way the call
ended, nothing exists at or below the build-scoped directory
`<temp>/<build-id>` (the build id being a fresh plain name). -/
theorem buildDir_absent_after_call (env : Env) (w : World) (mc n v patternFile : String)
    (homeDir : Path) (hhome : env.UserHomeDir = Except.ok homeDir)
    (hid : isPlainName env.uuidNew = true)
    (hfresh : existsUnder w.fs (joinPath (tempDirOf homeDir) env.uuidNew) = false)
    (hrm : env.removeAllFault (joinPath (tempDirOf homeDir) env.uuidNew) = none) :
    existsUnder (createHelmChartContent env w mc n v).2.fs
      (joinPath (tempDirOf homeDir) env.uuidNew) = false ∧
    existsUnder (Convert env w patternFile).2.fs
      (joinPath (tempDirOf homeDir) env.uuidNew) = false := by
  refine ⟨createHelmChartContent_buildDir_gone hhome hid hfresh hrm, ?_⟩
  rcases Convert_fs_or env w patternFile with h | ⟨w0, mc1, n1, v1, hw0, h⟩
  · rw [h]
    exact hfresh
  · rw [h]
    exact createHelmChartContent_buildDir_gone hhome hid (by rw [hw0]; exact hfresh) hrm

theorem buildDir_absent_after_call_witness :
    (demoEnv.UserHomeDir = Except.ok ["home"] ∧ isPlainName demoEnv.uuidNew = true ∧
      existsUnder emptyWorld.fs (joinPath (tempDirOf ["home"]) demoEnv.uuidNew) = false ∧
      demoEnv.removeAllFault (joinPath (tempDirOf ["home"]) demoEnv.uuidNew) = none) ∧
    (existsUnder (createHelmChartContent demoEnv emptyWorld "kind: a" "a" "1").2.fs
        (joinPath (tempDirOf ["home"]) demoEnv.uuidNew) = false ∧
      existsUnder (Convert demoEnv emptyWorld "a/1").2.fs
        (joinPath (tempDirOf ["home"]) demoEnv.uuidNew) = false) :=
  ⟨⟨rfl, by decide, by decide, rfl⟩,
   buildDir_absent_after_call demoEnv emptyWorld "kind: a" "a" "1" "a/1" ["home"]
     rfl (by decide) (by decide) rfl⟩

/-- C2 as stated fails: when `os.RemoveAll` fails, the call still succeeds,
only a warning is printed, and the build directory `<temp>/id1` is still
there after the call. -/
theorem buildDir_left_when_cleanup_fails :
    (Convert cleanupFaultEnv emptyWorld "a/1").1 = { out := "tgz:version: 1", err := none } ∧
    lookup (Convert cleanupFaultEnv emptyWorld "a/1").2.fs
      ["home", ".meshery", "tmp", "helm", "id1"] = some Node.dir ∧
    (Convert cleanupFaultEnv emptyWorld "a/1").2.warnings =
      ["Warning: Failed to clean up build directory: permission denied\n"] := by
  decide


/-! ## Where the scaffold lies -/

theorem prefix_foldl_cleanStep {base : Path} (l : List String) (hl : ".." ∉ l) :
    ∀ acc : Path, base <+: acc → base <+: l.foldl cleanStep acc := by
  induction l with
  | nil => intro acc h; exact h
  | cons c rest ih =>
    intro acc h
    rw [List.foldl_cons]
    apply ih (fun hm => hl (List.mem_cons_of_mem _ hm))
    have hc : c ≠ ".." := fun hc => hl (hc ▸ List.mem_cons_self _ _)
    unfold cleanStep
    by_cases h1 : c = "" ∨ c = "."
    · rw [if_pos h1]
      exact h
    · rw [if_neg h1, if_neg hc]
      exact h.trans (List.prefix_append _ _)

/-- A joined element without a `..` component stays below the base. -/
theorem prefix_joinPath (base : Path) {s : String} (h : ".." ∉ splitPath s) :
    base <+: joinPath base s :=
  prefix_foldl_cleanStep _ h base (List.prefix_refl _)

/-- C10 (amended): for every chart name none of whose `/`-separated components
is `..`, the scaffold root `filepath.Join(buildDir, chartName)`, its
`Chart.yaml` and its `templates/manifest.yaml` lie at or below the build
directory of the call; and provided `os.RemoveAll` of the build directory does
not fail, nothing at or below the scaffold root exists when
`createHelmChartContent` returns, whether or not the call succeeded. -/
theorem scaffold_inside_buildDir (env : Env) (w : World) (mc n v : String)
    (homeDir : Path) (hhome : env.UserHomeDir = Except.ok homeDir)
    (hid : isPlainName env.uuidNew = true)
    (hfresh : existsUnder w.fs (joinPath (tempDirOf homeDir) env.uuidNew) = false)
    (hrm : env.removeAllFault (joinPath (tempDirOf homeDir) env.uuidNew) = none)
    (hname : ".." ∉ splitPath n) :
    joinPath (tempDirOf homeDir) env.uuidNew <+:
      joinPath (joinPath (tempDirOf homeDir) env.uuidNew) n ∧
    joinPath (tempDirOf homeDir) env.uuidNew <+:
      joinPath (joinPath (joinPath (tempDirOf homeDir) env.uuidNew) n) "Chart.yaml" ∧
    joinPath (tempDirOf homeDir) env.uuidNew <+:
      joinPath (joinPath (joinPath (joinPath (tempDirOf homeDir) env.uuidNew) n) "templates")
        "manifest.yaml" ∧
    ∀ q, joinPath (joinPath (tempDirOf homeDir) env.uuidNew) n <+: q →
      lookup (createHelmChartContent env w mc n v).2.fs q = none := by
  have h1 := prefix_joinPath (joinPath (tempDirOf homeDir) env.uuidNew) hname
  refine ⟨h1, ?_, ?_, ?_⟩
  · exact h1.trans (prefix_joinPath _ (by decide))
  · exact h1.trans ((prefix_joinPath _ (by decide)).trans (prefix_joinPath _ (by decide)))
  · intro q hq
    exact lookup_of_not_existsUnder
      (createHelmChartContent_buildDir_gone hhome hid hfresh hrm) (h1.trans hq)

theorem scaffold_inside_buildDir_witness :
    (demoEnv.UserHomeDir = Except.ok ["home"] ∧ isPlainName demoEnv.uuidNew = true ∧
      existsUnder emptyWorld.fs (joinPath (tempDirOf ["home"]) demoEnv.uuidNew) = false ∧
      demoEnv.removeAllFault (joinPath (tempDirOf ["home"]) demoEnv.uuidNew) = none ∧
      ".." ∉ splitPath "a/b") ∧
    (["home", ".meshery", "tmp", "helm", "id1"] <+:
        joinPath (joinPath (tempDirOf ["home"]) demoEnv.uuidNew) "a/b" ∧
      ["home", ".meshery", "tmp", "helm", "id1"] <+:
        joinPath (joinPath (joinPath (tempDirOf ["home"]) demoEnv.uuidNew) "a/b") "Chart.yaml" ∧
      ["home", ".meshery", "tmp", "helm", "id1"] <+:
        joinPath (joinPath (joinPath (joinPath (tempDirOf ["home"]) demoEnv.uuidNew) "a/b")
          "templates") "manifest.yaml" ∧
      ∀ q, ["home", ".meshery", "tmp", "helm", "id1", "a", "b"] <+: q →
        lookup (createHelmChartContent demoEnv emptyWorld "kind: a" "a/b" "1").2.fs q = none) :=
  ⟨⟨rfl, by decide, by decide, rfl, by decide⟩,
   scaffold_inside_buildDir demoEnv emptyWorld "kind: a" "a/b" "1" ["home"]
     rfl (by decide) (by decide) rfl (by decide)⟩

/-- C10 as stated fails: the pattern name `..` sanitizes to the empty string,
so `Convert` passes `..` itself; `filepath.Join(buildDir, "..")` is the shared
temporary directory, not a path inside the build directory, and the
`Chart.yaml` and `templates/manifest.yaml` written there are still on disk
after the successful call. -/
theorem scaffold_escapes_buildDir :
    demoEnv.SanitizeHelmName ".." = "" ∧
    joinPath (joinPath (tempDirOf ["home"]) demoEnv.uuidNew) ".." =
      ["home", ".meshery", "tmp", "helm"] ∧
    ¬ (joinPath (tempDirOf ["home"]) demoEnv.uuidNew <+:
        joinPath (joinPath (tempDirOf ["home"]) demoEnv.uuidNew) "..") ∧
    (Convert demoEnv emptyWorld "../1").1.err = none ∧
    lookup (Convert demoEnv emptyWorld "../1").2.fs
      ["home", ".meshery", "tmp", "helm", "Chart.yaml"] = some (Node.file "version: 1") ∧
    lookup (Convert demoEnv emptyWorld "../1").2.fs
      ["home", ".meshery", "tmp", "helm", "templates", "manifest.yaml"] =
        some (Node.file "kind: ../1") := by
  decide


/-! ## The packaged archive file -/

theorem osRemove_file_fs {env : Env} {w : World} {p : Path} {d : String}
    (hf : env.removeFault p = none) (hl : lookup w.fs p = some (Node.file d)) :
    (osRemove env w p).2.fs = erase w.fs p := by
  unfold osRemove removeFS
  simp only [hf, hl]

theorem deferredCleanup_lookup_none {env : Env} {w : World} {d p : Path}
    (h : lookup w.fs p = none) : lookup (deferredCleanup env w d).fs p = none := by
  rcases hf : env.removeAllFault d with _ | e
  · rw [deferredCleanup_fs_ok hf]
    exact lookup_filter_none _ h
  · rw [deferredCleanup_fs_fault hf]
    exact h

/-- C3 (amended): in every successful call of `createHelmChartContent` the
packager returned a path holding exactly the returned bytes, and, provided
`os.Remove` of that path does not fail, no file exists at that path when the
call returns. -/
theorem archive_removed_after_success (env : Env) (w : World) (mc n v : String)
    (hr : (createHelmChartContent env w mc n v).1.err = none) :
    ∃ fs src dest p fs1, env.PackageRun fs src dest = Except.ok (p, fs1) ∧
      lookup fs1 p = some (Node.file (createHelmChartContent env w mc n v).1.out) ∧
      (env.removeFault p = none →
        lookup (createHelmChartContent env w mc n v).2.fs p = none) := by
  obtain ⟨homeDir, w1, w2, wb, -, -, -, hb, hw⟩ :=
    createHelmChartContent_ok_inv (show createHelmChartContent env w mc n v =
      ((createHelmChartContent env w mc n v).1, (createHelmChartContent env w mc n v).2)
      from rfl) hr
  obtain ⟨_, _, _, _, w5, p, w6, data, w7, -, -, -, -, -, hp, hread, hout, hwb⟩ :=
    chartBuild_ok_inv hb hr
  have hp1 := packagerRun_ok_inv hp
  obtain ⟨hl, hfs⟩ := osReadFile_ok_inv hread
  refine ⟨_, _, _, p, _, hp1, ?_, ?_⟩
  · rw [hout]
    exact hl
  · intro hf
    rw [hw]
    apply deferredCleanup_lookup_none
    have hl7 : lookup w7.fs p = some (Node.file data) := by rw [hfs]; exact hl
    have hrm := osRemove_file_fs hf hl7
    rcases hwb with h | ⟨msg, h⟩
    · rw [h, hrm]
      exact lookup_erase_self _ _
    · rw [h, warn_fs, hrm]
      exact lookup_erase_self _ _

theorem archive_removed_after_success_witness :
    (createHelmChartContent demoEnv emptyWorld "kind: a" "a" "1").1.err = none ∧
    ∃ fs src dest p fs1, demoEnv.PackageRun fs src dest = Except.ok (p, fs1) ∧
      lookup fs1 p =
        some (Node.file (createHelmChartContent demoEnv emptyWorld "kind: a" "a" "1").1.out) ∧
      (demoEnv.removeFault p = none →
        lookup (createHelmChartContent demoEnv emptyWorld "kind: a" "a" "1").2.fs p = none) :=
  ⟨by decide, archive_removed_after_success demoEnv emptyWorld "kind: a" "a" "1" (by decide)⟩

/-- C3 as stated fails: the packager wrote `helm-packages/chart.tgz`, the
read-back succeeded, `os.Remove` failed and was only logged, and the archive
file is still on disk when the successful call returns. -/
theorem archive_left_when_remove_fails :
    (createHelmChartContent removeFaultEnv emptyWorld "kind: a" "a" "1").1 =
      { out := "tgz:version: 1", err := none } ∧
    lookup (createHelmChartContent removeFaultEnv emptyWorld "kind: a" "a" "1").2.fs
      ["home", ".meshery", "helm-packages", "chart.tgz"] =
        some (Node.file "tgz:version: 1") ∧
    (createHelmChartContent removeFaultEnv emptyWorld "kind: a" "a" "1").2.warnings =
      ["Warning: Failed to clean up packaged chart: permission denied\n"] := by
  decide

/-- When the read-back fails, `createHelmChartContent` returns at line 125,
before the `os.Remove` of line 128: the archive file stays on disk. -/
theorem archive_left_when_read_fails :
    (createHelmChartContent readFaultEnv emptyWorld "kind: a" "a" "1").1 =
      { out := "",
        err := some (ConvError.ErrCreateHelmChart "permission denied"
          "reading packaged chart") } ∧
    lookup (createHelmChartContent readFaultEnv emptyWorld "kind: a" "a" "1").2.fs
      ["home", ".meshery", "helm-packages", "chart.tgz"] =
        some (Node.file "tgz:version: 1") ∧
    Call.Remove ["home", ".meshery", "helm-packages", "chart.tgz"] ∉
      (createHelmChartContent readFaultEnv emptyWorld "kind: a" "a" "1").2.calls := by
  decide


/-! ## What the packager is handed -/

theorem osWriteFile_ok_inv {env : Env} {w w1 : World} {p : Path} {d : String}
    (h : osWriteFile env w p d = (none, w1)) :
    w1.fs = (p, Node.file d) :: erase w.fs p := by
  unfold osWriteFile at h
  split at h
  · simp at h
  · split at h
    · simp at h
    · rename_i fs hfs
      simp only [Prod.mk.injEq, true_and] at h
      subst h
      unfold writeFileFS at hfs
      split at hfs
      · cases hfs
      · split at hfs
        · simp only [Except.ok.injEq] at hfs
          exact hfs.symm
        · cases hfs

theorem lookup_cons_self (fs : FS) (p : Path) (n : Node) : lookup ((p, n) :: fs) p = some n := by
  simp [lookup]

theorem lookup_write_ne (fs : FS) {p q : Path} (n : Node) (h : q ≠ p) :
    lookup ((p, n) :: erase fs p) q = lookup fs q := by
  rw [lookup, if_neg (Ne.symm h)]
  exact lookup_erase_ne fs h

theorem manifest_ne_chartYaml (src : Path) :
    joinPath src "Chart.yaml" ≠ joinPath (joinPath src "templates") "manifest.yaml" := by
  intro h
  have h1 : (src ++ ["Chart.yaml"]).length = ((src ++ ["templates"]) ++ ["manifest.yaml"]).length :=
    congrArg List.length h
  simp at h1

/-- C4: on a successful `Convert` the loader yielded a pattern and the
renderer a manifest; the metadata record that was marshalled has the
pattern's version unchanged; and the packager was run on a filesystem in
which `Chart.yaml` under the chart source directory holds the marshalled
record and `templates/manifest.yaml` holds the renderer's output unchanged. -/
theorem Convert_round_trip (env : Env) (w : World) (patternFile : String)
    (hr : (Convert env w patternFile).1.err = none) :
    ∃ pattern manifest chartName yaml fs src dest p fs1,
      env.GetPatternFormat patternFile = Except.ok pattern ∧
      env.K8sConvert patternFile = Except.ok manifest ∧
      chartName = (if env.SanitizeHelmName pattern.Name = "" then pattern.Name
        else env.SanitizeHelmName pattern.Name) ∧
      (chartMetadata chartName pattern.Version).Version = pattern.Version ∧
      env.yamlMarshal (chartMetadata chartName pattern.Version) = Except.ok yaml ∧
      lookup fs (joinPath src "Chart.yaml") = some (Node.file yaml) ∧
      lookup fs (joinPath (joinPath src "templates") "manifest.yaml") =
        some (Node.file manifest) ∧
      env.PackageRun fs src dest = Except.ok (p, fs1) := by
  obtain ⟨-, pattern, manifest, hload, -, -, hrender, hc⟩ :=
    Convert_ok_inv (show Convert env w patternFile =
      ((Convert env w patternFile).1, (Convert env w patternFile).2) from rfl) hr
  obtain ⟨homeDir, w1, w2, wb, -, -, -, hb, -⟩ := createHelmChartContent_ok_inv hc hr
  obtain ⟨_, w2b, yaml, w4, w5, p, w6, data, w7, -, -, hy, hw4, hw5, hp, -, -, -⟩ :=
    chartBuild_ok_inv hb hr
  refine ⟨pattern, manifest, _, yaml, w5.fs, _, _, p, w6.fs, hload, hrender, rfl, rfl, hy,
    ?_, ?_, packagerRun_ok_inv hp⟩
  · rw [osWriteFile_ok_inv hw5, lookup_write_ne _ _ (manifest_ne_chartYaml _),
      osWriteFile_ok_inv hw4]
    exact lookup_cons_self _ _ _
  · rw [osWriteFile_ok_inv hw5]
    exact lookup_cons_self _ _ _

theorem Convert_round_trip_witness :
    (Convert demoEnv emptyWorld "My App!/1.2.3").1.err = none ∧
    ∃ pattern manifest chartName yaml fs src dest p fs1,
      demoEnv.GetPatternFormat "My App!/1.2.3" = Except.ok pattern ∧
      demoEnv.K8sConvert "My App!/1.2.3" = Except.ok manifest ∧
      chartName = (if demoEnv.SanitizeHelmName pattern.Name = "" then pattern.Name
        else demoEnv.SanitizeHelmName pattern.Name) ∧
      (chartMetadata chartName pattern.Version).Version = pattern.Version ∧
      demoEnv.yamlMarshal (chartMetadata chartName pattern.Version) = Except.ok yaml ∧
      lookup fs (joinPath src "Chart.yaml") = some (Node.file yaml) ∧
      lookup fs (joinPath (joinPath src "templates") "manifest.yaml") =
        some (Node.file manifest) ∧
      demoEnv.PackageRun fs src dest = Except.ok (p, fs1) :=
  ⟨by decide, Convert_round_trip demoEnv emptyWorld "My App!/1.2.3" (by decide)⟩


/-! ## A run in which every step up to the read-back succeeds -/

/-- When each step of `createHelmChartContent` succeeds in turn, the call
returns the bytes read back and a nil error, whatever the two cleanups do. -/
theorem createHelmChartContent_run_ok {env : Env} {w : World} {mc n v : String}
    {homeDir src : Path} {w1 w2 w3 w4 w5 w6 w7 w8 : World} {yaml data : String} {p : Path}
    (hhome : env.UserHomeDir = Except.ok homeDir)
    (hsrc : src = joinPath (joinPath (tempDirOf homeDir) env.uuidNew) n)
    (h1 : osMkdirAll env (w.log Call.UserHomeDir) (packageDirOf homeDir) = (none, w1))
    (h2 : osMkdirAll env w1 (tempDirOf homeDir) = (none, w2))
    (h3 : osMkdirAll env (w2.log Call.uuidNew) src = (none, w3))
    (h4 : osMkdirAll env w3 (joinPath src "templates") = (none, w4))
    (hy : env.yamlMarshal (chartMetadata n v) = Except.ok yaml)
    (h5 : osWriteFile env (w4.log (Call.yamlMarshal (chartMetadata n v)))
      (joinPath src "Chart.yaml") yaml = (none, w5))
    (h6 : osWriteFile env w5 (joinPath (joinPath src "templates") "manifest.yaml") mc =
      (none, w6))
    (h7 : packagerRun env w6 src (packageDirOf homeDir) = (Except.ok p, w7))
    (h8 : osReadFile env w7 p = (Except.ok data, w8)) :
    (createHelmChartContent env w mc n v).1 = { out := data, err := none } := by
  subst hsrc
  unfold packageDirOf at h1 h7
  unfold tempDirOf at h2 h3 h4 h5 h6 h7
  unfold createHelmChartContent chartBuild
  simp only [hhome, h1, h2, h3, h4, hy, h5, h6, h7, h8]
  split <;> rfl

/-- When each step of `createHelmChartContent` before the packager succeeds in
turn and the packager then fails, the call returns the packaging error and
runs the deferred cleanup. -/
theorem createHelmChartContent_run_packager_error {env : Env} {w : World} {mc n v : String}
    {homeDir src : Path} {w1 w2 w3 w4 w5 w6 w7 : World} {yaml cause : String}
    (hhome : env.UserHomeDir = Except.ok homeDir)
    (hsrc : src = joinPath (joinPath (tempDirOf homeDir) env.uuidNew) n)
    (h1 : osMkdirAll env (w.log Call.UserHomeDir) (packageDirOf homeDir) = (none, w1))
    (h2 : osMkdirAll env w1 (tempDirOf homeDir) = (none, w2))
    (h3 : osMkdirAll env (w2.log Call.uuidNew) src = (none, w3))
    (h4 : osMkdirAll env w3 (joinPath src "templates") = (none, w4))
    (hy : env.yamlMarshal (chartMetadata n v) = Except.ok yaml)
    (h5 : osWriteFile env (w4.log (Call.yamlMarshal (chartMetadata n v)))
      (joinPath src "Chart.yaml") yaml = (none, w5))
    (h6 : osWriteFile env w5 (joinPath (joinPath src "templates") "manifest.yaml") mc =
      (none, w6))
    (h7 : packagerRun env w6 src (packageDirOf homeDir) = (Except.error cause, w7)) :
    createHelmChartContent env w mc n v =
      (failWith (ConvError.ErrHelmPackage cause),
       deferredCleanup env w7 (joinPath (tempDirOf homeDir) env.uuidNew)) := by
  subst hsrc
  unfold packageDirOf at h1 h7
  unfold tempDirOf at h2 h3 h4 h5 h6 h7 ⊢
  unfold createHelmChartContent chartBuild
  simp only [hhome, h1, h2, h3, h4, hy, h5, h6, h7]

/-- C1 (amended): when the loader, called on a non-empty input, yields a
pattern with non-empty name and version, and every later step of the call
succeeds in turn (the renderer, the home directory, the four directory
creations, the marshalling of the metadata, the two file writes, the packager
and the read-back of the file it returned), `Convert` returns the bytes read
back and a nil error; when those bytes are non-empty, the archive returned is
non-empty. Neither `os.Remove` nor `os.RemoveAll` has to succeed. -/
theorem Convert_succeeds (env : Env) (w : World) (patternFile : String)
    (pattern : Pattern) (manifest chartName : String) (homeDir src : Path)
    (w1 w2 w3 w4 w5 w6 w7 w8 : World) (yaml data : String) (p : Path)
    (hne : patternFile ≠ "")
    (hload : env.GetPatternFormat patternFile = Except.ok pattern)
    (hname : pattern.Name ≠ "") (hver : pattern.Version ≠ "")
    (hrender : env.K8sConvert patternFile = Except.ok manifest)
    (hcn : chartName = if env.SanitizeHelmName pattern.Name = "" then pattern.Name
      else env.SanitizeHelmName pattern.Name)
    (hhome : env.UserHomeDir = Except.ok homeDir)
    (hsrc : src = joinPath (joinPath (tempDirOf homeDir) env.uuidNew) chartName)
    (h1 : osMkdirAll env
      ((((w.log (Call.GetPatternFormat patternFile)).log (Call.K8sConvert patternFile)).log
        (Call.SanitizeHelmName pattern.Name)).log Call.UserHomeDir)
      (packageDirOf homeDir) = (none, w1))
    (h2 : osMkdirAll env w1 (tempDirOf homeDir) = (none, w2))
    (h3 : osMkdirAll env (w2.log Call.uuidNew) src = (none, w3))
    (h4 : osMkdirAll env w3 (joinPath src "templates") = (none, w4))
    (hy : env.yamlMarshal (chartMetadata chartName pattern.Version) = Except.ok yaml)
    (h5 : osWriteFile env (w4.log (Call.yamlMarshal (chartMetadata chartName pattern.Version)))
      (joinPath src "Chart.yaml") yaml = (none, w5))
    (h6 : osWriteFile env w5 (joinPath (joinPath src "templates") "manifest.yaml") manifest =
      (none, w6))
    (h7 : packagerRun env w6 src (packageDirOf homeDir) = (Except.ok p, w7))
    (h8 : osReadFile env w7 p = (Except.ok data, w8))
    (hdata : data ≠ "") :
    (Convert env w patternFile).1 = { out := data, err := none } ∧
    (Convert env w patternFile).1.out ≠ "" := by
  have hres : (Convert env w patternFile).1 = { out := data, err := none } := by
    rw [Convert_unfold hne hload hname hver hrender, ← hcn]
    exact createHelmChartContent_run_ok hhome hsrc h1 h2 h3 h4 hy h5 h6 h7 h8
  refine ⟨hres, ?_⟩
  rw [hres]
  exact hdata

theorem Convert_succeeds_witness :
    ("My App!/1.2.3" ≠ "" ∧
      demoEnv.GetPatternFormat "My App!/1.2.3" =
        Except.ok { Name := "My App!", Version := "1.2.3" } ∧
      "My App!" ≠ "" ∧ "1.2.3" ≠ "" ∧
      demoEnv.K8sConvert "My App!/1.2.3" = Except.ok "kind: My App!/1.2.3" ∧
      "myapp" = (if demoEnv.SanitizeHelmName "My App!" = "" then "My App!"
        else demoEnv.SanitizeHelmName "My App!") ∧
      demoEnv.UserHomeDir = Except.ok ["home"] ∧
      demoSrc = joinPath (joinPath (tempDirOf ["home"]) demoEnv.uuidNew) "myapp" ∧
      osMkdirAll demoEnv demoRun0 (packageDirOf ["home"]) = (none, demoRun1) ∧
      osMkdirAll demoEnv demoRun1 (tempDirOf ["home"]) = (none, demoRun2) ∧
      osMkdirAll demoEnv (demoRun2.log Call.uuidNew) demoSrc = (none, demoRun3) ∧
      osMkdirAll demoEnv demoRun3 (joinPath demoSrc "templates") = (none, demoRun4) ∧
      demoEnv.yamlMarshal (chartMetadata "myapp" "1.2.3") = Except.ok "version: 1.2.3" ∧
      osWriteFile demoEnv (demoRun4.log (Call.yamlMarshal (chartMetadata "myapp" "1.2.3")))
        (joinPath demoSrc "Chart.yaml") "version: 1.2.3" = (none, demoRun5) ∧
      osWriteFile demoEnv demoRun5 (joinPath (joinPath demoSrc "templates") "manifest.yaml")
        "kind: My App!/1.2.3" = (none, demoRun6) ∧
      packagerRun demoEnv demoRun6 demoSrc (packageDirOf ["home"]) =
        (Except.ok ["home", ".meshery", "helm-packages", "chart.tgz"], demoRun7) ∧
      osReadFile demoEnv demoRun7 ["home", ".meshery", "helm-packages", "chart.tgz"] =
        (Except.ok "tgz:version: 1.2.3", demoRun8) ∧
      "tgz:version: 1.2.3" ≠ "") ∧
    ((Convert demoEnv emptyWorld "My App!/1.2.3").1 =
        { out := "tgz:version: 1.2.3", err := none } ∧
      (Convert demoEnv emptyWorld "My App!/1.2.3").1.out ≠ "") :=
  ⟨⟨by decide, rfl, by decide, by decide, rfl, by decide, rfl, by decide, by decide,
      by decide, by decide, by decide, rfl, by decide, by decide, rfl, rfl, by decide⟩,
   Convert_succeeds demoEnv emptyWorld "My App!/1.2.3"
     { Name := "My App!", Version := "1.2.3" } "kind: My App!/1.2.3" "myapp" ["home"] demoSrc
     demoRun1 demoRun2 demoRun3 demoRun4 demoRun5 demoRun6 demoRun7 demoRun8
     "version: 1.2.3" "tgz:version: 1.2.3" ["home", ".meshery", "helm-packages", "chart.tgz"]
     (by decide) rfl (by decide) (by decide) rfl (by decide) rfl (by decide) (by decide)
     (by decide) (by decide) (by decide) rfl (by decide) (by decide) rfl rfl (by decide)⟩

/-- C1 as stated fails twice. With a loader that yields name `a` and version
`1`, both non-empty: when the renderer fails, `Convert` returns no archive and
the manifest-conversion error; and when every step succeeds but the packager
leaves an empty archive file, `Convert` returns the empty string with a nil
error. -/
theorem Convert_fails_or_returns_empty_archive :
    (rendererFailEnv.GetPatternFormat "a/1" = Except.ok { Name := "a", Version := "1" } ∧
      Convert rendererFailEnv emptyWorld "a/1" =
        ({ out := "", err := some (ConvError.ErrConvertK8s "no components") },
         { fs := [], calls := [Call.GetPatternFormat "a/1", Call.K8sConvert "a/1"],
           warnings := [] })) ∧
    (emptyArchiveEnv.GetPatternFormat "a/1" = Except.ok { Name := "a", Version := "1" } ∧
      emptyArchiveEnv.PackageRun [] ["src"] ["dest"] =
        Except.ok (["dest", "chart.tgz"], [(["dest", "chart.tgz"], Node.file "")]) ∧
      (Convert emptyArchiveEnv emptyWorld "a/1").1 = { out := "", err := none }) :=
  ⟨⟨rfl, by decide⟩, rfl, rfl, by decide⟩

/-! ## A failing packager -/

/-- C5 (amended): when every step before the packager succeeds in turn and
the packager then fails on the filesystem it is handed, `Convert` returns no
archive and the packaging error `ErrHelmPackage` with the cause of the
packager, not a chart-creation error. If moreover `os.RemoveAll` of the build
directory does not fail, nothing exists at or below the build directory when
the call returns; and if in addition no component of the chart name is `..`,
nothing exists at or below the scaffold root: the scaffold directories and
the files in them are removed. -/
theorem Convert_packaging_error (env : Env) (w : World) (patternFile : String)
    (pattern : Pattern) (manifest chartName : String) (homeDir src : Path)
    (w1 w2 w3 w4 w5 w6 w7 : World) (yaml cause : String)
    (hne : patternFile ≠ "")
    (hload : env.GetPatternFormat patternFile = Except.ok pattern)
    (hname : pattern.Name ≠ "") (hver : pattern.Version ≠ "")
    (hrender : env.K8sConvert patternFile = Except.ok manifest)
    (hcn : chartName = if env.SanitizeHelmName pattern.Name = "" then pattern.Name
      else env.SanitizeHelmName pattern.Name)
    (hhome : env.UserHomeDir = Except.ok homeDir)
    (hsrc : src = joinPath (joinPath (tempDirOf homeDir) env.uuidNew) chartName)
    (h1 : osMkdirAll env
      ((((w.log (Call.GetPatternFormat patternFile)).log (Call.K8sConvert patternFile)).log
        (Call.SanitizeHelmName pattern.Name)).log Call.UserHomeDir)
      (packageDirOf homeDir) = (none, w1))
    (h2 : osMkdirAll env w1 (tempDirOf homeDir) = (none, w2))
    (h3 : osMkdirAll env (w2.log Call.uuidNew) src = (none, w3))
    (h4 : osMkdirAll env w3 (joinPath src "templates") = (none, w4))
    (hy : env.yamlMarshal (chartMetadata chartName pattern.Version) = Except.ok yaml)
    (h5 : osWriteFile env (w4.log (Call.yamlMarshal (chartMetadata chartName pattern.Version)))
      (joinPath src "Chart.yaml") yaml = (none, w5))
    (h6 : osWriteFile env w5 (joinPath (joinPath src "templates") "manifest.yaml") manifest =
      (none, w6))
    (h7 : packagerRun env w6 src (packageDirOf homeDir) = (Except.error cause, w7)) :
    (Convert env w patternFile).1 =
      { out := "", err := some (ConvError.ErrHelmPackage cause) } ∧
    (∀ c step, (Convert env w patternFile).1.err ≠
      some (ConvError.ErrCreateHelmChart c step)) ∧
    (env.removeAllFault (joinPath (tempDirOf homeDir) env.uuidNew) = none →
      existsUnder (Convert env w patternFile).2.fs
        (joinPath (tempDirOf homeDir) env.uuidNew) = false ∧
      (".." ∉ splitPath chartName →
        ∀ q, src <+: q → lookup (Convert env w patternFile).2.fs q = none)) := by
  have hres : Convert env w patternFile =
      (failWith (ConvError.ErrHelmPackage cause),
       deferredCleanup env w7 (joinPath (tempDirOf homeDir) env.uuidNew)) := by
    rw [Convert_unfold hne hload hname hver hrender, ← hcn]
    exact createHelmChartContent_run_packager_error hhome hsrc h1 h2 h3 h4 hy h5 h6 h7
  refine ⟨?_, ?_, ?_⟩
  · rw [hres]
    rfl
  · intro c step
    rw [hres]
    simp [failWith]
  · intro hrm
    have hgone : existsUnder (Convert env w patternFile).2.fs
        (joinPath (tempDirOf homeDir) env.uuidNew) = false := by
      rw [hres]
      show existsUnder (deferredCleanup env w7 _).fs _ = false
      rw [deferredCleanup_fs_ok hrm]
      exact existsUnder_eraseTree _ _
    refine ⟨hgone, ?_⟩
    intro hdots q hq
    apply lookup_of_not_existsUnder hgone
    rw [hsrc] at hq
    exact (prefix_joinPath _ hdots).trans hq

theorem Convert_packaging_error_witness :
    ("My App!/1.2.3" ≠ "" ∧
      packagerFailEnv.GetPatternFormat "My App!/1.2.3" =
        Except.ok { Name := "My App!", Version := "1.2.3" } ∧
      "My App!" ≠ "" ∧ "1.2.3" ≠ "" ∧
      packagerFailEnv.K8sConvert "My App!/1.2.3" = Except.ok "kind: My App!/1.2.3" ∧
      "myapp" = (if packagerFailEnv.SanitizeHelmName "My App!" = "" then "My App!"
        else packagerFailEnv.SanitizeHelmName "My App!") ∧
      packagerFailEnv.UserHomeDir = Except.ok ["home"] ∧
      demoSrc = joinPath (joinPath (tempDirOf ["home"]) packagerFailEnv.uuidNew) "myapp" ∧
      osMkdirAll packagerFailEnv demoRun0 (packageDirOf ["home"]) = (none, demoRun1) ∧
      osMkdirAll packagerFailEnv demoRun1 (tempDirOf ["home"]) = (none, demoRun2) ∧
      osMkdirAll packagerFailEnv (demoRun2.log Call.uuidNew) demoSrc = (none, demoRun3) ∧
      osMkdirAll packagerFailEnv demoRun3 (joinPath demoSrc "templates") = (none, demoRun4) ∧
      packagerFailEnv.yamlMarshal (chartMetadata "myapp" "1.2.3") =
        Except.ok "version: 1.2.3" ∧
      osWriteFile packagerFailEnv
        (demoRun4.log (Call.yamlMarshal (chartMetadata "myapp" "1.2.3")))
        (joinPath demoSrc "Chart.yaml") "version: 1.2.3" = (none, demoRun5) ∧
      osWriteFile packagerFailEnv demoRun5
        (joinPath (joinPath demoSrc "templates") "manifest.yaml")
        "kind: My App!/1.2.3" = (none, demoRun6) ∧
      packagerRun packagerFailEnv demoRun6 demoSrc (packageDirOf ["home"]) =
        (Except.error "chart is invalid", demoRunFailed) ∧
      packagerFailEnv.removeAllFault (joinPath (tempDirOf ["home"]) packagerFailEnv.uuidNew) =
        none ∧
      ".." ∉ splitPath "myapp") ∧
    ((Convert packagerFailEnv emptyWorld "My App!/1.2.3").1 =
        { out := "", err := some (ConvError.ErrHelmPackage "chart is invalid") } ∧
      (∀ c step, (Convert packagerFailEnv emptyWorld "My App!/1.2.3").1.err ≠
        some (ConvError.ErrCreateHelmChart c step)) ∧
      existsUnder (Convert packagerFailEnv emptyWorld "My App!/1.2.3").2.fs
        (joinPath (tempDirOf ["home"]) packagerFailEnv.uuidNew) = false ∧
      ∀ q, demoSrc <+: q →
        lookup (Convert packagerFailEnv emptyWorld "My App!/1.2.3").2.fs q = none) :=
  have h := Convert_packaging_error packagerFailEnv emptyWorld "My App!/1.2.3"
     { Name := "My App!", Version := "1.2.3" } "kind: My App!/1.2.3" "myapp" ["home"] demoSrc
     demoRun1 demoRun2 demoRun3 demoRun4 demoRun5 demoRun6 demoRunFailed
     "version: 1.2.3" "chart is invalid"
     (by decide) rfl (by decide) (by decide) rfl (by decide) rfl (by decide) (by decide)
     (by decide) (by decide) (by decide) rfl (by decide) (by decide) rfl
  ⟨⟨by decide, rfl, by decide, by decide, rfl, by decide, rfl, by decide, by decide,
      by decide, by decide, by decide, rfl, by decide, by decide, rfl, rfl, by decide⟩,
   h.1, h.2.1, (h.2.2 rfl).1, (h.2.2 rfl).2 (by decide)⟩

/-- C5 as stated fails twice, the packager failing after every earlier step
succeeded and `Convert` returning the packaging error. When `os.RemoveAll`
fails too, which is only logged, the scaffold directories are still on disk.
And when the pattern name is `..`, which sanitizes to the empty string, the
scaffold root is the shared temporary directory: `os.RemoveAll` of the build
directory succeeds, yet `Chart.yaml` and `templates/manifest.yaml` are still
on disk. -/
theorem scaffold_left_when_packager_fails :
    ((Convert packagerCleanupFailEnv emptyWorld "a/1").1 =
        { out := "", err := some (ConvError.ErrHelmPackage "chart is invalid") } ∧
      lookup (Convert packagerCleanupFailEnv emptyWorld "a/1").2.fs
        ["home", ".meshery", "tmp", "helm", "id1", "a"] = some Node.dir ∧
      lookup (Convert packagerCleanupFailEnv emptyWorld "a/1").2.fs
        ["home", ".meshery", "tmp", "helm", "id1", "a", "templates"] = some Node.dir ∧
      (Convert packagerCleanupFailEnv emptyWorld "a/1").2.warnings =
        ["Warning: Failed to clean up build directory: permission denied\n"]) ∧
    ((Convert packagerFailEnv emptyWorld "../1").1 =
        { out := "", err := some (ConvError.ErrHelmPackage "chart is invalid") } ∧
      joinPath (joinPath (tempDirOf ["home"]) packagerFailEnv.uuidNew) ".." =
        ["home", ".meshery", "tmp", "helm"] ∧
      lookup (Convert packagerFailEnv emptyWorld "../1").2.fs
        ["home", ".meshery", "tmp", "helm", "Chart.yaml"] = some (Node.file "version: 1") ∧
      lookup (Convert packagerFailEnv emptyWorld "../1").2.fs
        ["home", ".meshery", "tmp", "helm", "templates", "manifest.yaml"] =
          some (Node.file "kind: ../1") ∧
      (Convert packagerFailEnv emptyWorld "../1").2.warnings = []) := by
  decide

/-- C9 as stated fails: every step succeeds and the packager leaves an empty
archive file, so `Convert` returns the empty string together with a nil
error: neither a non-empty archive nor an error. -/
theorem Convert_returns_neither_archive_nor_error :
    emptyArchiveEnv.PackageRun [] ["src"] ["dest"] =
      Except.ok (["dest", "chart.tgz"], [(["dest", "chart.tgz"], Node.file "")]) ∧
    (Convert emptyArchiveEnv emptyWorld "b/2").1 = { out := "", err := none } ∧
    Call.ReadFile ["home", ".meshery", "helm-packages", "chart.tgz"] ∈
      (Convert emptyArchiveEnv emptyWorld "b/2").2.calls :=
  ⟨rfl, by decide, by decide⟩

end Meshkit
